import Mathlib

/-
Verification development for the TTS engine core of READ2ME
(src/TTS/tts_engines.py).

The Python source is shallowly embedded below.  External collaborators
(the speech models, txtsplit, the filesystem, the random source, pydub,
subprocess, the database layer) are opaque in the source and appear here
as explicit function parameters (oracles) or as explicit data describing
their answers, so that every claim is stated for all possible behaviours
of the opaque parts.  Python exceptions are modelled with `Except`;
Python `None` returns and tuple returns are modelled by the `PyValue`
type where the distinction matters.
-/

set_option autoImplicit false

/-- Audio fragment: an ordered list of decoded samples (numpy arrays in the
source are opaque; only identity, ordering and concatenation matter). -/
abbrev Frag := List Int

/-- VQ token codes produced by the llama generator (opaque payload). -/
abbrev Codes := List Int

/-- Python exception values raised by the embedded code, by class and message. -/
inductive PyErr where
  | valueError (msg : String)
  | runtimeError (msg : String)
  | fileNotFound (msg : String)
  | osError (msg : String)
  | exception (msg : String)
  deriving DecidableEq, Repr

/-- Shape of a Python return value of a `generate_audio` coroutine: a bare
`AudioSegment`, a `(AudioSegment, optional str)` tuple, or `None` (the value a
Python function returns when it falls off the end). -/
inductive PyValue where
  | seg (a : Frag)
  | pair (a : Frag) (caption : Option String)
  | pyNone
  deriving DecidableEq, Repr

/-- Decidable equality for `Except`, needed to state and decide concrete
evaluations of the embedded fallible functions. -/
instance {ε α : Type} [DecidableEq ε] [DecidableEq α] :
    DecidableEq (Except ε α) := fun x y =>
  match x, y with
  | Except.ok a, Except.ok b =>
      if h : a = b then isTrue (congrArg Except.ok h)
      else isFalse (fun hh => h (Except.ok.inj hh))
  | Except.error a, Except.error b =>
      if h : a = b then isTrue (congrArg Except.error h)
      else isFalse (fun hh => h (Except.error.inj hh))
  | Except.ok _, Except.error _ => isFalse (fun hh => Except.noConfusion hh)
  | Except.error _, Except.ok _ => isFalse (fun hh => Except.noConfusion hh)

/-- Python truthiness of an `Optional[str]` value: `None` and `""` are falsy. -/
def pyTruthyStr : Option String → Bool
  | none => false
  | some s => s ≠ ""

/-- Python truthiness of an `Optional[int]` value: `None` and `0` are falsy. -/
def pyTruthyInt : Option Int → Bool
  | none => false
  | some n => n ≠ 0

/-- Python `str.strip()`: the string with leading and trailing whitespace
removed (computable by structural recursion so that concrete runs reduce). -/
def pyStrip (s : String) : String :=
  String.mk (((s.data.dropWhile Char.isWhitespace).reverse.dropWhile
    Char.isWhitespace).reverse)

/-- Python `str.endswith(suf)`: the character list of `s` ends with the
character list of `suf` (computable by structural recursion so that concrete
runs reduce). -/
def strEndsWith (s suf : String) : Bool :=
  decide (List.take suf.data.length s.data.reverse = suf.data.reverse)

/-- Embedding of `TTSEngine.pick_random_voice` (tts_engines.py lines 74-102).
`random.choice` is parametrised by `choose`, which supplies an arbitrary index
into the candidate pool (reduced modulo the pool length, so every argument
describes a possible run of the random source).  The source first raises
`ValueError` on an empty list, then filters out `previous_voice` when it is
truthy (Python: `if previous_voice and previous_voice in available_voices`)
and a member of the list, and raises `ValueError` when the filtered pool is
empty. -/
def pick_random_voice (choose : List String → Nat)
    (available_voices : List String) (previous_voice : Option String) :
    Except PyErr String :=
  if available_voices.isEmpty then
    Except.error (PyErr.valueError "No available voices to select from.")
  else
    let voices_to_choose_from :=
      match previous_voice with
      | some p =>
          if (p != "") && available_voices.contains p then
            available_voices.filter (fun voice => voice != p)
          else available_voices
      | none => available_voices
    if voices_to_choose_from.isEmpty then
      Except.error
        (PyErr.valueError "Only one voice available, cannot pick a different one.")
    else
      Except.ok (voices_to_choose_from.getD
        (choose voices_to_choose_from % voices_to_choose_from.length) "")

/-- One database record-update call made by `TTSEngine.export_audio`. -/
inductive UpdateCall where
  | article (id : String)
  | text (id : Int)
  | podcast (id : Int)
  deriving DecidableEq, Repr

/-- Embedding of the record-update selection at the end of
`TTSEngine.export_audio` (tts_engines.py lines 142-176), reached after a
successful export.  The export work itself (title generation, mp3 export,
tagging, markdown and vtt files) is performed by external collaborators and
produces no database calls, so only the `if article_id: / elif text_id: /
elif podcast_id:` chain is modelled; the result lists the update calls made,
in order.  The source's inner conditions `audio_type == "url/full" or
"url/tldr"` and `audio_type == "text/full" or "text/tldr"` are kept verbatim:
in Python the second operand is a non-empty string literal, so the
disjunction is truthy regardless of `audio_type`. -/
def export_audio_db_updates (audio_type : Option String)
    (article_id : Option String) (text_id : Option Int)
    (podcast_id : Option Int) : List UpdateCall :=
  if pyTruthyStr article_id then
    if audio_type = some "url/full" ∨ ("url/tldr" : String) ≠ "" then
      [UpdateCall.article (article_id.getD "")]
    else []
  else if pyTruthyInt text_id then
    if audio_type = some "text/full" ∨ ("text/tldr" : String) ≠ "" then
      [UpdateCall.text (text_id.getD 0)]
    else []
  else if pyTruthyInt podcast_id then
    if audio_type = some "podcast" then
      [UpdateCall.podcast (podcast_id.getD 0)]
    else []
  else []

/-- One entry of `os.listdir(voices_dir)` as seen by
`PiperTTSEngine.get_available_voices`: its name, whether it is a directory,
and, when it is, the file names inside it. -/
structure PiperEntry where
  name : String
  isDir : Bool
  files : List String
  deriving DecidableEq, Repr

/-- The state of the Piper voices directory: whether `os.path.exists` answers
true for it, and its entries when it does. -/
structure PiperVoicesDir where
  present : Bool
  entries : List PiperEntry
  deriving DecidableEq, Repr

/-- Embedding of `PiperTTSEngine.get_available_voices` (tts_engines.py lines
294-316).  When the voices directory does not exist the source logs an error
and returns `[]`; otherwise it returns the names of the subdirectories that
contain both an `.onnx` file and a `.json` file.  The codomain is
`Except PyErr` to record that no path of the source raises. -/
def piper_get_available_voices (fs : PiperVoicesDir) :
    Except PyErr (List String) :=
  if !fs.present then
    Except.ok []
  else
    Except.ok ((fs.entries.filter (fun e =>
      e.isDir
        && e.files.any (fun f => strEndsWith f ".onnx")
        && e.files.any (fun f => strEndsWith f ".json"))).map PiperEntry.name)

/-- Stem component of Python `os.path.splitext`: the name up to the last dot,
except that a dot with only dots before it (as in `.wav` or `..wav`) does not
begin an extension. -/
def pySplitextStem (f : String) : String :=
  let cs := f.data
  let valid := (List.range cs.length).filter (fun i =>
    cs.getD i ' ' = '.' && (List.range i).any (fun j => cs.getD j ' ' ≠ '.'))
  match valid.getLast? with
  | some i => String.mk (cs.take i)
  | none => f

/-- Embedding of `FishTTSEngine.get_available_voices` (tts_engines.py lines
674-684).  `listing` is the answer of `os.listdir(self.voices_dir)`: `none`
when the listing raises (the source's `except` logs and re-raises), `some
files` when it succeeds, in which case the voice ids are the stems of the
`.wav` files. -/
def fish_get_available_voices (listing : Option (List String)) :
    Except PyErr (List String) :=
  match listing with
  | none => Except.error (PyErr.osError "listdir failed")
  | some files =>
      Except.ok ((files.filter (fun f => strEndsWith f ".wav")).map pySplitextStem)

/-- Behaviour of one `generate_long(...)` call as observed by the worker of
`FishTTSEngine.launch_thread_safe_queue`: the chunks the generator yields, in
order, and — when the routine raises — the exception raised after those
yields. -/
structure WorkerReq where
  yields : List Codes
  raises : Option PyErr
  deriving DecidableEq, Repr

/-- A `WrappedGenerateResponse` as put by the worker on a response queue:
`status="success"` carrying a chunk, or `status="error"` carrying the caught
exception. -/
inductive WrappedResp where
  | success (chunk : Codes)
  | error (e : PyErr)
  deriving DecidableEq, Repr

/-- Responses the worker pushes onto one request's response queue
(tts_engines.py lines 657-667): one `success` per chunk yielded by
`generate_long`, then — only when the routine raises — a single `error`
response from the `except` clause. -/
def processRequest (r : WorkerReq) : List WrappedResp :=
  r.yields.map WrappedResp.success ++
    (match r.raises with
     | some e => [WrappedResp.error e]
     | none => [])

/-- Trace of the worker loop of `launch_thread_safe_queue` (tts_engines.py
lines 649-667), started at queue position `i`: the input queue is consumed
front-first (`input_queue.get()` dequeues in FIFO submission order); a `none`
item (the sentinel) breaks the loop; each dequeued request is processed to
completion before the next `get`.  Every pushed response is recorded as a
pair of the index of the request whose dedicated response queue receives it
and the response itself. -/
def workerTrace : Nat → List (Option WorkerReq) → List (Nat × WrappedResp)
  | _, [] => []
  | _, none :: _ => []
  | i, some r :: rest =>
      (processRequest r).map (fun w => (i, w)) ++ workerTrace (i + 1) rest

/-- Contents of request `i`'s response queue: the responses of the trace
addressed to index `i`, in push order. -/
def channelOf (i : Nat) (tr : List (Nat × WrappedResp)) : List WrappedResp :=
  (tr.filter (fun p => p.1 == i)).map Prod.snd

/-- Result of the per-segment loop of `StyleTTS2Engine.generate_audio`
(tts_engines.py lines 429-436) on a list of text segments, together with the
list of segments actually passed to `inference`, in call order.  `inference`
answers `Except.error e` when the model raises, `Except.ok none` when it
returns `None` (the source then only logs and moves on), and
`Except.ok (some f)` when it produces audio. -/
def sttsCollect (inference : String → Except PyErr (Option Frag)) :
    List String → Except PyErr (List Frag) × List String
  | [] => (Except.ok [], [])
  | t :: ts =>
      match inference t with
      | Except.error e => (Except.error e, [t])
      | Except.ok none =>
          let rc := sttsCollect inference ts
          (rc.1, t :: rc.2)
      | Except.ok (some f) =>
          let rc := sttsCollect inference ts
          (rc.1.map (fun l => f :: l), t :: rc.2)

/-- Embedding of `StyleTTS2Engine.generate_audio` (tts_engines.py lines
407-451).  `split` is the external `txtsplit`; `inference` the styletts2
model call.  The whole body sits in a `try` whose `except` clause only logs
the exception and falls off the end of the function, so every raise inside
the body — including the `ValueError`s for empty text, over-long text and
"No audio segments were generated" — results in a normal return of Python
`None` (`PyValue.pyNone`).  On success the source concatenates the collected
fragments in input order and returns the tuple `(audio, None)` implicitly via
`return audio, None`.  The second component of the result is the list of
segments handed to `inference`. -/
def styleTTS2_generate_audio (split : String → List String)
    (inference : String → Except PyErr (Option Frag)) (text : String) :
    PyValue × List String :=
  if pyStrip text = "" then (PyValue.pyNone, [])
  else if text.length > 150000 then (PyValue.pyNone, [])
  else
    let rc := sttsCollect inference (split text)
    match rc.1 with
    | Except.error _ => (PyValue.pyNone, rc.2)
    | Except.ok audios =>
        if audios.isEmpty then (PyValue.pyNone, rc.2)
        else (PyValue.pair audios.flatten none, rc.2)

/-- One item read from the response queue by `FishTTSEngine.generate_audio`:
a `status="error"` wrapper, a success wrapper whose response has
`action == "next"` (the break marker), or a success wrapper carrying VQ
codes. -/
inductive FishQueueItem where
  | err (e : PyErr)
  | next
  | seg (codes : Codes)
  deriving DecidableEq, Repr

/-- The `GenerateRequest` payload `FishTTSEngine.generate_audio` enqueues on
`self.llama_queue`: of the request parameters only the text and the
reference tokens loaded for the voice vary per call. -/
structure FishReq where
  text : String
  promptTokens : Option Codes
  deriving DecidableEq, Repr

/-- Observable outcome of one `FishTTSEngine.generate_audio` call: the
requests put on the worker's input queue, and the call's result — `none` when
the source would block forever on `response_queue.get()` (no terminal item
arrives), otherwise the raised exception or the returned value. -/
structure FishCall where
  enqueued : List FishReq
  result : Option (Except PyErr PyValue)
  deriving DecidableEq, Repr

/-- The response-collection loop of `FishTTSEngine.generate_audio`
(tts_engines.py lines 724-746) over the successive contents of the response
queue: an error wrapper raises, a `"next"` action breaks, and any other
response is decoded with `decode_vq_tokens` (the oracle `decode`) and
appended.  An exhausted list with no terminal marker means the source blocks
in `response_queue.get()`, modelled as `none`. -/
def fishCollect (decode : Codes → Frag) :
    List FishQueueItem → Option (Except PyErr (List Frag))
  | [] => none
  | FishQueueItem.err _ :: _ =>
      some (Except.error (PyErr.exception "Error in inference"))
  | FishQueueItem.next :: _ => some (Except.ok [])
  | FishQueueItem.seg c :: rest =>
      match fishCollect decode rest with
      | none => none
      | some (Except.error e) => some (Except.error e)
      | some (Except.ok l) => some (Except.ok (decode c :: l))

/-- Embedding of `FishTTSEngine.generate_audio` (tts_engines.py lines
686-773).  The source performs no validation of `text`: it builds the request
parameters (including `text` and the reference tokens loaded by
`_load_reference_tokens`, the oracle `loadRef`), enqueues the request, then
collects responses; the outer `except` clause logs and re-raises, so raises
propagate.  When no segment was produced it raises `Exception("No audio
generated")`; otherwise it concatenates the segments and returns the bare
`AudioSegment` (`PyValue.seg`), not a tuple. -/
def fish_generate_audio (decode : Codes → Frag)
    (loadRef : String → Option Codes) (queueItems : List FishQueueItem)
    (text voice_id : String) : FishCall :=
  let req : FishReq := { text := text, promptTokens := loadRef voice_id }
  { enqueued := [req]
    result :=
      match fishCollect decode queueItems with
      | none => none
      | some (Except.error e) => some (Except.error e)
      | some (Except.ok segments) =>
          if segments.isEmpty then
            some (Except.error (PyErr.exception "No audio generated"))
          else
            some (Except.ok (PyValue.seg segments.flatten)) }

/-! Helper lemmas -/

/-- An element read from a non-empty list at an index reduced modulo the list
length is a member of the list. -/
theorem getD_mod_mem (l : List String) (n : Nat) (h : l ≠ []) :
    l.getD (n % l.length) "" ∈ l := by
  have hlen : 0 < l.length := List.length_pos.mpr h
  have hlt : n % l.length < l.length := Nat.mod_lt _ hlen
  rw [List.getD_eq_getElem?_getD, List.getElem?_eq_getElem hlt]
  exact List.getElem_mem hlt

/-- Filtering away one string leaves exactly the lists all of whose members
equal that string empty. -/
theorem filter_bne_eq_nil_iff (l : List String) (p : String) :
    l.filter (fun v => v != p) = [] ↔ ∀ v ∈ l, v = p := by
  rw [List.filter_eq_nil_iff]
  constructor
  · intro h v hv
    have := h v hv
    simpa [bne_iff_ne] using this
  · intro h v hv
    simp [bne_iff_ne, h v hv]

/-- Claim C1 (amended): whenever the available list contains the previous
voice, the previous voice is a non-empty string, and some other voice is
present, `pick_random_voice` returns a member of the list different from the
previous voice, for every behaviour of the random source; in particular for
the list `["A", "B"]` with previous voice `"A"` every call returns `"B"`. -/
theorem pick_random_voice_avoids_previous :
    (∀ (choose : List String → Nat) (available : List String) (p : String),
        p ≠ "" → p ∈ available → (∃ v₀ ∈ available, v₀ ≠ p) →
        ∃ v, pick_random_voice choose available (some p) = Except.ok v ∧
          v ∈ available ∧ v ≠ p) ∧
    (∀ choose : List String → Nat,
        pick_random_voice choose ["A", "B"] (some "A") = Except.ok "B") := by
  constructor
  · intro choose available p hp hmem hother
    obtain ⟨v₀, hv₀, hv₀ne⟩ := hother
    have havail : available ≠ [] := List.ne_nil_of_mem hmem
    have h1 : available.isEmpty = false := List.isEmpty_eq_false.mpr havail
    have hcond : ((p != "") && available.contains p) = true := by
      rw [Bool.and_eq_true]
      exact ⟨bne_iff_ne.mpr hp, List.elem_iff.mpr hmem⟩
    have hpoolmem : v₀ ∈ available.filter (fun voice => voice != p) :=
      List.mem_filter.mpr ⟨hv₀, bne_iff_ne.mpr hv₀ne⟩
    have hpool : available.filter (fun voice => voice != p) ≠ [] :=
      List.ne_nil_of_mem hpoolmem
    have h2 : (available.filter (fun voice => voice != p)).isEmpty = false :=
      List.isEmpty_eq_false.mpr hpool
    refine ⟨(available.filter (fun voice => voice != p)).getD
      (choose (available.filter (fun voice => voice != p)) %
        (available.filter (fun voice => voice != p)).length) "", ?_, ?_, ?_⟩
    · simp only [pick_random_voice, h1, hcond, h2]
      simp
      exact ⟨v₀, hv₀, hv₀ne⟩
    · have := getD_mod_mem (available.filter (fun voice => voice != p))
        (choose (available.filter (fun voice => voice != p))) hpool
      exact (List.mem_filter.mp this).1
    · have := getD_mod_mem (available.filter (fun voice => voice != p))
        (choose (available.filter (fun voice => voice != p))) hpool
      exact bne_iff_ne.mp (List.mem_filter.mp this).2
  · intro choose
    simp [pick_random_voice, Nat.mod_one]

/-- Witness for the amended C1 theorem at the concrete scenario of the claim:
the list `["A", "B"]` with previous voice `"A"`. -/
theorem pick_random_voice_avoids_previous_witness :
    ∃ v, pick_random_voice (fun _ => 0) ["A", "B"] (some "A") = Except.ok v ∧
      v ∈ ["A", "B"] ∧ v ≠ "A" :=
  pick_random_voice_avoids_previous.1 (fun _ => 0) ["A", "B"] "A"
    (by decide) (by decide) ⟨"B", by decide, by decide⟩

/-- Counterexample to claim C1 as stated: for the list `["", "B"]`, whose
members include the previous voice `""` and the different voice `"B"`, a run
of the random source picking index `0` makes `pick_random_voice` return the
previous voice `""` itself — the source tests `if previous_voice and ...`, and
the empty string is falsy in Python, so the previous voice is not filtered
out. -/
theorem pick_random_voice_empty_previous_cex :
    pick_random_voice (fun _ => 0) ["", "B"] (some "") = Except.ok "" ∧
      ("" : String) ∈ ["", "B"] ∧ ("B" : String) ∈ ["", "B"] ∧
      ("B" : String) ≠ "" := by
  refine ⟨by decide, by decide, by decide, by decide⟩

/-- Claim C2 (amended): `pick_random_voice` raises exactly when the
available list is empty, or when the previous voice is a non-empty string
that occurs in the list and every member of the list equals it; in every
other case it returns a voice without error. -/
theorem pick_random_voice_error_iff (choose : List String → Nat)
    (available : List String) (previous : Option String) :
    (∃ e, pick_random_voice choose available previous = Except.error e) ↔
      available = [] ∨
        ∃ p, previous = some p ∧ p ≠ "" ∧ p ∈ available ∧
          ∀ v ∈ available, v = p := by
  by_cases hav : available = []
  · subst hav
    simp [pick_random_voice]
  · have h1 : available.isEmpty = false := List.isEmpty_eq_false.mpr hav
    cases previous with
    | none =>
        simp only [pick_random_voice, h1]
        simp [List.isEmpty_eq_false.mpr hav, hav]
    | some p =>
        by_cases hc : p ≠ "" ∧ p ∈ available
        · have hcond : ((p != "") && available.contains p) = true := by
            rw [Bool.and_eq_true]
            exact ⟨bne_iff_ne.mpr hc.1, List.elem_iff.mpr hc.2⟩
          by_cases hall : ∀ v ∈ available, v = p
          · have hnil : available.filter (fun voice => voice != p) = [] :=
              (filter_bne_eq_nil_iff available p).mpr hall
            simp only [pick_random_voice, h1, hcond]
            simp [hnil, hav, hc.1, hc.2]
            exact hall
          · have hnnil : available.filter (fun voice => voice != p) ≠ [] := by
              intro hcontra
              exact hall ((filter_bne_eq_nil_iff available p).mp hcontra)
            have h2 : (available.filter (fun voice => voice != p)).isEmpty = false :=
              List.isEmpty_eq_false.mpr hnnil
            simp only [pick_random_voice, h1, hcond, h2]
            simp [hav]
            rw [if_neg hall]
            simp [hall]
        · have hcond : ((p != "") && available.contains p) = false := by
            rcases not_and_or.mp hc with h | h
            · have hpe : p = "" := not_not.mp h
              subst hpe
              simp
            · have hnc : available.contains p = false := by
                by_contra hb
                have hct : available.contains p = true := by
                  revert hb
                  cases available.contains p <;> simp
                exact h (List.elem_iff.mp hct)
              rw [hnc, Bool.and_false]
          simp only [pick_random_voice, h1, hcond]
          simp [hav]
          intro hne hmem
          exact absurd ⟨hne, hmem⟩ hc

/-- Counterexample to claim C2 as stated: the singleton list `[""]` contains
only the previous voice `""`, so the claim requires a failure, but the code
returns `""` without error — the Python truthiness test skips the exclusion
because the empty string is falsy. -/
theorem pick_random_voice_singleton_empty_previous_cex :
    pick_random_voice (fun _ => 0) [""] (some "") = Except.ok "" ∧
      ("" : String) ∈ [""] ∧ (∀ v ∈ ([""] : List String), v = "") := by
  refine ⟨by decide, by decide, by decide⟩

/-- Every response in the worker trace started at queue position `i` is
addressed to a request index at least `i`. -/
theorem workerTrace_fst_ge (l : List WorkerReq) :
    ∀ (i : Nat), ∀ q ∈ workerTrace i (l.map Option.some), i ≤ q.1 := by
  induction l with
  | nil => intro i q hq; simp [workerTrace] at hq
  | cons r rest ih =>
      intro i q hq
      simp only [List.map_cons, workerTrace, List.mem_append] at hq
      rcases hq with h | h
      · rcases List.mem_map.mp h with ⟨w, _, rfl⟩
        exact Nat.le_refl i
      · exact Nat.le_of_succ_le (ih (i + 1) q h)

/-- `channelOf` distributes over concatenated traces. -/
theorem channelOf_append (i : Nat) (t1 t2 : List (Nat × WrappedResp)) :
    channelOf i (t1 ++ t2) = channelOf i t1 ++ channelOf i t2 := by
  simp [channelOf, List.filter_append]

/-- A channel extracted from the responses of the request it belongs to
receives all of them, in order. -/
theorem channelOf_own_section (i : Nat) (ws : List WrappedResp) :
    channelOf i (ws.map (fun w => (i, w))) = ws := by
  induction ws with
  | nil => rfl
  | cons w ws ih => simp [channelOf, List.filter] at ih ⊢; simpa using ih

/-- A channel extracted from a trace that never addresses it is empty. -/
theorem channelOf_disjoint (j : Nat) (tr : List (Nat × WrappedResp))
    (h : ∀ q ∈ tr, q.1 ≠ j) : channelOf j tr = [] := by
  have : tr.filter (fun p => p.1 == j) = [] := by
    apply List.filter_eq_nil_iff.mpr
    intro q hq
    simp [h q hq]
  simp [channelOf, this]

/-- The response channel of the request at queue position `k` receives
exactly the responses of that request's processing: the worker pushes every
chunk of a request only onto that request's dedicated channel. -/
theorem channelOf_workerTrace (l : List WorkerReq) :
    ∀ (i k : Nat),
      channelOf (i + k) (workerTrace i (l.map Option.some)) =
        ((l.get? k).map processRequest).getD [] := by
  induction l with
  | nil => intro i k; simp [workerTrace, channelOf]
  | cons r rest ih =>
      intro i k
      cases k with
      | zero =>
          simp only [List.map_cons, workerTrace, Nat.add_zero]
          rw [channelOf_append, channelOf_own_section]
          have hdisj : channelOf i (workerTrace (i + 1) (rest.map Option.some)) = [] := by
            apply channelOf_disjoint
            intro q hq
            have := workerTrace_fst_ge rest (i + 1) q hq
            omega
          rw [hdisj]
          simp
      | succ k' =>
          simp only [List.map_cons, workerTrace]
          rw [channelOf_append]
          have hdisj : channelOf (i + (k' + 1))
              ((processRequest r).map (fun w => (i, w))) = [] := by
            apply channelOf_disjoint
            intro q hq
            rcases List.mem_map.mp hq with ⟨w, _, rfl⟩
            omega
          rw [hdisj]
          have := ih (i + 1) k'
          have harith : i + 1 + k' = i + (k' + 1) := by omega
          rw [harith] at this
          rw [this]
          simp

/-- Lists all of whose members are related pairwise by a reflexive-on-them
relation. -/
theorem pairwise_of_forall {α : Type} (l : List α) (R : α → α → Prop)
    (h : ∀ a b, R a b) : l.Pairwise R := by
  induction l with
  | nil => exact List.Pairwise.nil
  | cons x xs ih => exact List.Pairwise.cons (fun b _ => h x b) ih

/-- The worker trace is ordered by request index: once the worker has moved
on to a later request it never pushes for an earlier one. -/
theorem workerTrace_pairwise (l : List WorkerReq) :
    ∀ (i : Nat),
      (workerTrace i (l.map Option.some)).Pairwise (fun a b => a.1 ≤ b.1) := by
  induction l with
  | nil => intro i; simp [workerTrace]
  | cons r rest ih =>
      intro i
      simp only [List.map_cons, workerTrace]
      apply List.pairwise_append.mpr
      refine ⟨?_, ih (i + 1), ?_⟩
      · apply List.pairwise_map.mpr
        exact pairwise_of_forall _ _ (fun a b => Nat.le_refl i)
      · intro a ha b hb
        rcases List.mem_map.mp ha with ⟨w, _, rfl⟩
        exact Nat.le_of_succ_le (workerTrace_fst_ge rest (i + 1) b hb)

/-- The worker trace is the concatenation, in submission order, of each
request's responses tagged with that request's index. -/
theorem workerTrace_eq_flatten (l : List WorkerReq) :
    ∀ (i : Nat),
      workerTrace i (l.map Option.some) =
        ((l.enumFrom i).map (fun q =>
          (processRequest q.2).map (fun w => (q.1, w)))).flatten := by
  induction l with
  | nil => intro i; rfl
  | cons r rest ih =>
      intro i
      simp only [List.map_cons, workerTrace, List.enumFrom_cons, List.flatten]
      rw [ih (i + 1)]

/-- Claim C4: requests handed to the worker of `launch_thread_safe_queue` are
dequeued and processed strictly in submission (FIFO) order, one at a time:
the full trace is the concatenation of the requests' response blocks in
submission order; the trace never returns to an earlier request's channel
after moving past it (no interleaving); and each request's dedicated response
channel carries exactly that request's responses in generation order. -/
theorem worker_fifo_no_interleaving (reqs : List WorkerReq) :
    workerTrace 0 (reqs.map Option.some) =
      (reqs.enum.map (fun q =>
        (processRequest q.2).map (fun w => (q.1, w)))).flatten ∧
    (workerTrace 0 (reqs.map Option.some)).Pairwise (fun a b => a.1 ≤ b.1) ∧
    ∀ k : Fin reqs.length,
      channelOf k.1 (workerTrace 0 (reqs.map Option.some)) =
        processRequest (reqs.get k) := by
  refine ⟨?_, workerTrace_pairwise reqs 0, ?_⟩
  · rw [List.enum_eq_enumFrom]
    exact workerTrace_eq_flatten reqs 0
  · intro k
    have h := channelOf_workerTrace reqs 0 k.1
    simp only [Nat.zero_add] at h
    rw [h, List.get?_eq_get k.2]
    simp

/-- Claim C3: when the generation routine of the request at position
`pre.length` raises after its yields, the worker catches the exception,
pushes the error-status response onto that request's own channel after the
already-pushed chunks, and goes on to serve every subsequently submitted
request completely. -/
theorem worker_catches_error_and_serves_next
    (pre post : List WorkerReq) (r : WorkerReq) (e : PyErr)
    (h : r.raises = some e) :
    channelOf pre.length
        (workerTrace 0 ((pre ++ r :: post).map Option.some)) =
      r.yields.map WrappedResp.success ++ [WrappedResp.error e] ∧
    ∀ k : Fin post.length,
      channelOf (pre.length + 1 + k.1)
          (workerTrace 0 ((pre ++ r :: post).map Option.some)) =
        processRequest (post.get k) := by
  constructor
  · have hch := channelOf_workerTrace (pre ++ r :: post) 0 pre.length
    simp only [Nat.zero_add] at hch
    rw [hch, List.get?_append_right (Nat.le_refl pre.length)]
    simp [processRequest, h]
  · intro k
    have hch := channelOf_workerTrace (pre ++ r :: post) 0 (pre.length + 1 + k.1)
    simp only [Nat.zero_add] at hch
    rw [hch, List.get?_append_right (by omega : pre.length ≤ pre.length + 1 + k.1)]
    have harith : pre.length + 1 + k.1 - pre.length = k.1 + 1 := by omega
    rw [harith]
    simp only [List.get?_cons_succ]
    rw [List.get?_eq_get k.2]
    simp

/-- Witness for the claim C3 theorem at the claim's scenario: request R1
yields two chunks then raises, request R2 is submitted after R1; R1's channel
ends with the error response and R2's channel carries R2's full output. -/
theorem worker_catches_error_and_serves_next_witness :
    channelOf 0 (workerTrace 0
        (((⟨[[1], [2]], some (PyErr.runtimeError "boom")⟩ : WorkerReq) ::
          [(⟨[[3]], none⟩ : WorkerReq)]).map Option.some)) =
      [WrappedResp.success [1], WrappedResp.success [2],
       WrappedResp.error (PyErr.runtimeError "boom")] ∧
    channelOf 1 (workerTrace 0
        (((⟨[[1], [2]], some (PyErr.runtimeError "boom")⟩ : WorkerReq) ::
          [(⟨[[3]], none⟩ : WorkerReq)]).map Option.some)) =
      [WrappedResp.success [3]] := by
  have h := worker_catches_error_and_serves_next []
    [(⟨[[3]], none⟩ : WorkerReq)]
    (⟨[[1], [2]], some (PyErr.runtimeError "boom")⟩ : WorkerReq)
    (PyErr.runtimeError "boom") rfl
  exact ⟨h.1, by simpa using h.2 ⟨0, by decide⟩⟩

/-- When the model raises on no segment, the per-segment loop of StyleTTS2
collects exactly the fragments of the segments whose inference produced
audio, in input order, and calls inference on every segment. -/
theorem sttsCollect_no_raise (inference : String → Except PyErr (Option Frag))
    (ts : List String) (h : ∀ t ∈ ts, ∃ r, inference t = Except.ok r) :
    sttsCollect inference ts =
      (Except.ok (ts.filterMap (fun t =>
        match inference t with
        | Except.ok (some f) => some f
        | _ => none)), ts) := by
  induction ts with
  | nil => rfl
  | cons t ts ih =>
      obtain ⟨r, hr⟩ := h t (List.mem_cons_self t ts)
      have hrest := ih (fun u hu => h u (List.mem_cons_of_mem t hu))
      cases r with
      | none => simp [sttsCollect, hr, hrest, List.filterMap_cons]
      | some f => simp [sttsCollect, hr, hrest, List.filterMap_cons, Except.map]

/-- Claim C5 (code bug witness): with a styletts2 inference that raises, a
call to `StyleTTS2Engine.generate_audio` with valid text does not re-raise;
the `except` clause only logs, so the call returns Python `None` as if
normally — the fault is swallowed instead of being re-surfaced to the
caller. -/
theorem styletts2_generate_audio_swallows_exception :
    styleTTS2_generate_audio (fun t => [t])
      (fun _ => Except.error (PyErr.runtimeError "inference failed")) "hello" =
      (PyValue.pyNone, ["hello"]) := by decide

/-- Claim C6 (amended): `StyleTTS2Engine.generate_audio` splits the text into
segments, calls inference on every segment, skips any segment that yields no
audio, and concatenates the remaining fragments in input order; only when no
segment at all yields audio does the call abort via `ValueError("No audio
segments were generated")`, which the surrounding handler swallows, so the
call then returns `None` instead of a result. -/
theorem styletts2_segmented_concat_skips_empty
    (split : String → List String)
    (inference : String → Except PyErr (Option Frag)) (text : String)
    (h1 : ¬ pyStrip text = "") (h2 : ¬ text.length > 150000)
    (h3 : ∀ t ∈ split text, ∃ r, inference t = Except.ok r) :
    styleTTS2_generate_audio split inference text =
      (if ((split text).filterMap (fun t =>
            match inference t with
            | Except.ok (some f) => some f
            | _ => none)).isEmpty
       then PyValue.pyNone
       else PyValue.pair ((split text).filterMap (fun t =>
            match inference t with
            | Except.ok (some f) => some f
            | _ => none)).flatten none,
       split text) := by
  unfold styleTTS2_generate_audio
  rw [if_neg h1, if_neg h2, sttsCollect_no_raise inference (split text) h3]
  by_cases he : ((split text).filterMap (fun t =>
      match inference t with
      | Except.ok (some f) => some f
      | _ => none)).isEmpty
  · simp [he]
  · simp [he]

/-- Witness for the amended C6 theorem on a concrete run where the single
segment produces audio. -/
theorem styletts2_segmented_concat_skips_empty_witness :
    styleTTS2_generate_audio (fun t => [t])
      (fun _ => Except.ok (some [1])) "x" =
      (if (["x"].filterMap (fun t =>
            match (fun (_ : String) => Except.ok (ε := PyErr) (some ([1] : Frag))) t with
            | Except.ok (some f) => some f
            | _ => none)).isEmpty
       then PyValue.pyNone
       else PyValue.pair (["x"].filterMap (fun t =>
            match (fun (_ : String) => Except.ok (ε := PyErr) (some ([1] : Frag))) t with
            | Except.ok (some f) => some f
            | _ => none)).flatten none,
       ["x"]) :=
  styletts2_segmented_concat_skips_empty (fun t => [t])
    (fun _ => Except.ok (some [1])) "x" (by decide) (by decide)
    (fun t _ => ⟨some [1], rfl⟩)

/-- Counterexample to claim C6 as stated: with two segments of which the
first yields no audio and the second yields a fragment, the call does not
fail — it returns the audio built from the remaining segment. -/
theorem styletts2_skipped_segment_success_cex :
    styleTTS2_generate_audio (fun _ => ["a", "b"])
      (fun t => if t = "a" then Except.ok none else Except.ok (some [7]))
      "ab" = (PyValue.pair [7] none, ["a", "b"]) := by decide

/-- Claim C7 (amended): `FishTTSEngine.get_available_voices` re-raises on a
failing directory listing and otherwise reports every `.wav`-derived voice;
`PiperTTSEngine.get_available_voices`, however, returns an empty list without
error when the voices directory does not exist. -/
theorem get_available_voices_discovery_amended
    (files : List String) (fs : PiperVoicesDir) :
    fish_get_available_voices none =
      Except.error (PyErr.osError "listdir failed") ∧
    (∀ f ∈ files, strEndsWith f ".wav" = true →
      ∃ l, fish_get_available_voices (some files) = Except.ok l ∧
        pySplitextStem f ∈ l) ∧
    (fs.present = false → piper_get_available_voices fs = Except.ok []) := by
  refine ⟨rfl, ?_, ?_⟩
  · intro f hf hw
    exact ⟨_, rfl, List.mem_map_of_mem _ (List.mem_filter.mpr ⟨hf, hw⟩)⟩
  · intro hp
    simp [piper_get_available_voices, hp]

/-- Witness for the amended C7 theorem on a concrete listing and a missing
voices directory. -/
theorem get_available_voices_discovery_amended_witness :
    (∃ l, fish_get_available_voices (some ["a.wav"]) = Except.ok l ∧
      pySplitextStem "a.wav" ∈ l) ∧
    piper_get_available_voices ⟨false, []⟩ = Except.ok [] :=
  ⟨(get_available_voices_discovery_amended ["a.wav"] ⟨false, []⟩).2.1 "a.wav"
      (by decide) (by decide),
    (get_available_voices_discovery_amended ["a.wav"] ⟨false, []⟩).2.2 rfl⟩

/-- Counterexample to claim C7 as stated: when the Piper voices directory
does not exist, `get_available_voices` silently returns the empty list in
place of failing with a discovery error. -/
theorem piper_missing_voices_dir_silent_empty_cex :
    piper_get_available_voices { present := false, entries := [] } =
      Except.ok [] := by decide

/-- Claim C8 (amended): only the StyleTTS2 variant checks for empty text,
and its check raises inside the `try` before any inference call, so the call
returns `None` with no synthesis interaction (the raise is swallowed by the
handler); the Fish variant performs no empty-text validation at all and
enqueues its request to the generation worker regardless, in particular for
empty text. -/
theorem empty_text_validation_amended
    (split : String → List String)
    (inference : String → Except PyErr (Option Frag)) (text : String)
    (h : pyStrip text = "")
    (decode : Codes → Frag) (loadRef : String → Option Codes)
    (queueItems : List FishQueueItem) (voice : String) :
    styleTTS2_generate_audio split inference text = (PyValue.pyNone, []) ∧
    (fish_generate_audio decode loadRef queueItems "" voice).enqueued =
      [{ text := "", promptTokens := loadRef voice }] := by
  constructor
  · simp [styleTTS2_generate_audio, h]
  · rfl

/-- Witness for the amended C8 theorem at empty text. -/
theorem empty_text_validation_amended_witness :
    styleTTS2_generate_audio (fun t => [t])
      (fun _ => Except.ok (some [1])) "" = (PyValue.pyNone, []) ∧
    (fish_generate_audio (fun c => c) (fun _ => none) [] "" "v").enqueued =
      [{ text := "", promptTokens := none }] :=
  empty_text_validation_amended (fun t => [t]) (fun _ => Except.ok (some [1]))
    "" (by decide) (fun c => c) (fun _ => none) [] "v"

/-- Counterexample to claim C8 as stated: `FishTTSEngine.generate_audio`
called with empty text enqueues a generation request on the worker queue (so
worker interaction does occur), and the eventual failure is the post-worker
`Exception("No audio generated")`, not an input-validation error raised
beforehand. -/
theorem fish_empty_text_enqueues_request_cex :
    (fish_generate_audio (fun c => c) (fun _ => none) [FishQueueItem.next]
        "" "v").enqueued = [{ text := "", promptTokens := none }] ∧
    (fish_generate_audio (fun c => c) (fun _ => none) [FishQueueItem.next]
        "" "v").result =
      some (Except.error (PyErr.exception "No audio generated")) := by
  exact ⟨by decide, by decide⟩

/-- The inner `audio_type` conditions of the article and text branches are
always true (their right operand is a non-empty string literal), so the
update selection reduces to the `if/elif` chain on the identifiers, with the
podcast branch alone guarded by a real `audio_type` check. -/
theorem export_audio_db_updates_eq (audio_type : Option String)
    (article_id : Option String) (text_id : Option Int)
    (podcast_id : Option Int) :
    export_audio_db_updates audio_type article_id text_id podcast_id =
      if pyTruthyStr article_id then [UpdateCall.article (article_id.getD "")]
      else if pyTruthyInt text_id then [UpdateCall.text (text_id.getD 0)]
      else if pyTruthyInt podcast_id then
        (if audio_type = some "podcast" then
          [UpdateCall.podcast (podcast_id.getD 0)]
        else [])
      else [] := by
  have hu : (audio_type = some "url/full" ∨ ("url/tldr" : String) ≠ "") :=
    Or.inr (by decide)
  have ht : (audio_type = some "text/full" ∨ ("text/tldr" : String) ≠ "") :=
    Or.inr (by decide)
  unfold export_audio_db_updates
  simp only [if_pos hu, if_pos ht]

/-- Claim C9: after a successful export, `export_audio` performs at most one
database record-update call, and any update performed is the one selected by
the first truthy identifier in the fixed order article, text, podcast; in
particular, when both an article identifier and a text identifier are
supplied, exactly one update occurs and it is the article update. -/
theorem export_audio_at_most_one_db_update (audio_type : Option String)
    (article_id : Option String) (text_id : Option Int)
    (podcast_id : Option Int) :
    (export_audio_db_updates audio_type article_id text_id podcast_id).length ≤ 1 ∧
    (∀ a, article_id = some a → a ≠ "" →
      export_audio_db_updates audio_type article_id text_id podcast_id =
        [UpdateCall.article a]) ∧
    (∀ a t, article_id = some a → a ≠ "" → text_id = some t → t ≠ 0 →
      export_audio_db_updates audio_type article_id text_id podcast_id =
        [UpdateCall.article a]) ∧
    (∀ a, UpdateCall.article a ∈
        export_audio_db_updates audio_type article_id text_id podcast_id →
      pyTruthyStr article_id = true) ∧
    (∀ t, UpdateCall.text t ∈
        export_audio_db_updates audio_type article_id text_id podcast_id →
      pyTruthyStr article_id = false ∧ pyTruthyInt text_id = true) ∧
    (∀ pcid, UpdateCall.podcast pcid ∈
        export_audio_db_updates audio_type article_id text_id podcast_id →
      pyTruthyStr article_id = false ∧ pyTruthyInt text_id = false ∧
        pyTruthyInt podcast_id = true) := by
  rw [export_audio_db_updates_eq]
  by_cases ha : pyTruthyStr article_id
  · refine ⟨by simp [ha], ?_, ?_, ?_, ?_, ?_⟩
    · intro a haid hane
      subst haid
      simp [ha]
    · intro a t haid hane htid htne
      subst haid
      simp [ha]
    · intro a _
      exact ha
    · intro t hmem
      simp [ha] at hmem
    · intro pcid hmem
      simp [ha] at hmem
  · have ha' : pyTruthyStr article_id = false := by
      revert ha
      cases pyTruthyStr article_id <;> simp
    by_cases htt : pyTruthyInt text_id
    · refine ⟨by simp [ha, htt], ?_, ?_, ?_, ?_, ?_⟩
      · intro a haid hane
        subst haid
        exact absurd (by simp [pyTruthyStr, hane]) ha
      · intro a t haid hane htid htne
        subst haid
        exact absurd (by simp [pyTruthyStr, hane]) ha
      · intro a hmem
        simp [ha, htt] at hmem
      · intro t hmem
        exact ⟨ha', htt⟩
      · intro pcid hmem
        simp [ha, htt] at hmem
    · have htt' : pyTruthyInt text_id = false := by
        revert htt
        cases pyTruthyInt text_id <;> simp
      by_cases hpp : pyTruthyInt podcast_id
      · refine ⟨?_, ?_, ?_, ?_, ?_, ?_⟩
        · by_cases hty : audio_type = some "podcast" <;> simp [ha, htt, hpp, hty]
        · intro a haid hane
          subst haid
          exact absurd (by simp [pyTruthyStr, hane]) ha
        · intro a t haid hane htid htne
          subst haid
          exact absurd (by simp [pyTruthyStr, hane]) ha
        · intro a hmem
          by_cases hty : audio_type = some "podcast" <;>
            simp [ha, htt, hpp, hty] at hmem
        · intro t hmem
          by_cases hty : audio_type = some "podcast" <;>
            simp [ha, htt, hpp, hty] at hmem
        · intro pcid hmem
          exact ⟨ha', htt', hpp⟩
      · refine ⟨by simp [ha, htt, hpp], ?_, ?_, ?_, ?_, ?_⟩
        · intro a haid hane
          subst haid
          exact absurd (by simp [pyTruthyStr, hane]) ha
        · intro a t haid hane htid htne
          subst haid
          exact absurd (by simp [pyTruthyStr, hane]) ha
        · intro a hmem
          simp [ha, htt, hpp] at hmem
        · intro t hmem
          simp [ha, htt, hpp] at hmem
        · intro pcid hmem
          simp [ha, htt, hpp] at hmem

/-- Witness for the claim C9 theorem at the claim's scenario: both an
article identifier and a text identifier supplied — exactly the article
update is performed. -/
theorem export_audio_at_most_one_db_update_witness :
    export_audio_db_updates (some "url/full") (some "a1") (some 2) none =
      [UpdateCall.article "a1"] :=
  (export_audio_at_most_one_db_update (some "url/full") (some "a1")
    (some 2) none).2.2.1 "a1" 2 rfl (by decide) rfl (by decide)

/-- Claim C10: every successful return of `FishTTSEngine.generate_audio` is
a bare `AudioSegment` value, never the `(AudioBuffer, optional caption)`
tuple of the abstract `TTSEngine.generate_audio` contract; the StyleTTS2
variant by contrast either returns such a tuple (with `None` caption) or
Python `None`. -/
theorem fish_generate_audio_returns_bare_segment
    (decode : Codes → Frag) (loadRef : String → Option Codes)
    (queueItems : List FishQueueItem) (text voice : String) (v : PyValue)
    (h : (fish_generate_audio decode loadRef queueItems text voice).result =
      some (Except.ok v)) :
    (∃ a, v = PyValue.seg a) ∧
    ∀ (split : String → List String)
      (inference : String → Except PyErr (Option Frag)) (t : String),
      (styleTTS2_generate_audio split inference t).1 = PyValue.pyNone ∨
        ∃ f, (styleTTS2_generate_audio split inference t).1 =
          PyValue.pair f none := by
  constructor
  · unfold fish_generate_audio at h
    cases hfc : fishCollect decode queueItems with
    | none => rw [hfc] at h; simp at h
    | some res =>
        cases res with
        | error e => rw [hfc] at h; simp at h
        | ok segments =>
            by_cases hs : segments.isEmpty
            · rw [hfc] at h; simp [hs] at h
            · rw [hfc] at h
              simp [hs] at h
              exact ⟨segments.flatten, h.symm⟩
  · intro split inference t
    unfold styleTTS2_generate_audio
    by_cases h1 : pyStrip t = ""
    · left; simp [h1]
    · by_cases h2 : t.length > 150000
      · left; simp [h1, h2]
      · rw [if_neg h1, if_neg h2]
        cases hc : (sttsCollect inference (split t)).1 with
        | error e => left; simp [hc]
        | ok audios =>
            by_cases he : audios.isEmpty
            · left; simp [hc, he]
            · right
              exact ⟨audios.flatten, by simp [hc, he]⟩

/-- Witness for the claim C10 theorem at a concrete successful run: one
chunk followed by the `"next"` marker yields the bare segment value. -/
theorem fish_generate_audio_returns_bare_segment_witness :
    (fish_generate_audio (fun c => c) (fun _ => none)
        [FishQueueItem.seg [1], FishQueueItem.next] "t" "v").result =
      some (Except.ok (PyValue.seg [1])) ∧
    ∃ a, (PyValue.seg ([1] : Frag)) = PyValue.seg a :=
  ⟨by decide,
    (fish_generate_audio_returns_bare_segment (fun c => c) (fun _ => none)
      [FishQueueItem.seg [1], FishQueueItem.next] "t" "v" (PyValue.seg [1])
      (by decide)).1⟩
